import Mathlib

/-!
Verification development for the otel-log-sender repository (main.go).

The Go source is shallowly embedded below:

* the OTLP-style data model (`AttributeValue`, `KeyValue`, `LogRecord`,
  `Resource`, `Scope`, `ScopeLogs`, `ResourceLogs`) mirrors the Go structs;
  Go pointer fields with `omitempty` become `Option`, Go slices become
  `List` (Go's `omitempty` cannot distinguish a nil slice from an empty
  one, so a `[]byte` field is a `List UInt8` with `[]` meaning unset);
* `convertToAttributeValue` mirrors the Go type switch; its argument type
  `GoValue` has one constructor per arm of the switch, plus `other` for
  every dynamic type not matched by an arm, carrying the `fmt.Sprintf`
  rendering of the value;
* the `processQueue` select loop becomes a step function over the observed
  event sequence (a record received from the channel, or a ticker tick);
* `sendBatch`'s control flow after serialization becomes a pure
  classification of the environment's answer (marshal success, transport
  result) into an outcome, a list of diagnostic log lines, and a count of
  POST attempts;
* `encoding/json` marshalling is modelled as a JSON syntax tree (`Json`):
  object fields appear in Go struct-field order, `omitempty` fields are
  omitted, and `[]byte` is rendered through standard base64 exactly as
  `encoding/json` does. Decoding (which the program itself never performs
  on the envelope; it is the receiver's inverse reading of section 6 of
  the design) is modelled by total lookup-based readers with Go's
  zero-value defaults for absent fields.
-/

namespace OtelLogSender

/-! ### The OTLP data model (main.go lines 15-99) -/

mutual

/-- Mirrors Go `type AttributeValue struct` (main.go lines 37-45): seven
optional variant fields, recursive through `ArrayValue` and `KvlistValue`.
`bytesValue` is a Go `[]byte` slice; `[]` plays the role of Go's nil. -/
inductive AttributeValue : Type where
  | mk (stringValue : Option String) (boolValue : Option Bool)
       (intValue : Option Int) (doubleValue : Option Float)
       (arrayValue : Option ArrayValue) (kvlistValue : Option KvlistValue)
       (bytesValue : List UInt8) : AttributeValue

/-- Mirrors Go `type ArrayValue struct` (main.go lines 47-49). -/
inductive ArrayValue : Type where
  | mk (values : List AttributeValue) : ArrayValue

/-- Mirrors Go `type KvlistValue struct` (main.go lines 51-53). -/
inductive KvlistValue : Type where
  | mk (values : List KeyValue) : KvlistValue

/-- Mirrors Go `type KeyValue struct` (main.go lines 29-32). -/
inductive KeyValue : Type where
  | mk (key : String) (value : AttributeValue) : KeyValue

end

def AttributeValue.stringValue : AttributeValue → Option String
  | .mk s _ _ _ _ _ _ => s

def AttributeValue.boolValue : AttributeValue → Option Bool
  | .mk _ b _ _ _ _ _ => b

def AttributeValue.intValue : AttributeValue → Option Int
  | .mk _ _ i _ _ _ _ => i

def AttributeValue.doubleValue : AttributeValue → Option Float
  | .mk _ _ _ d _ _ _ => d

def AttributeValue.arrayValue : AttributeValue → Option ArrayValue
  | .mk _ _ _ _ a _ _ => a

def AttributeValue.kvlistValue : AttributeValue → Option KvlistValue
  | .mk _ _ _ _ _ k _ => k

def AttributeValue.bytesValue : AttributeValue → List UInt8
  | .mk _ _ _ _ _ _ b => b

def KeyValue.key : KeyValue → String
  | .mk k _ => k

def KeyValue.value : KeyValue → AttributeValue
  | .mk _ v => v

/-- Shorthand for an AttributeValue with only the string variant set, the
shape `AttributeValue\x7bStringValue: &s\x7d` used throughout main.go. -/
def strAttr (s : String) : AttributeValue :=
  .mk (some s) none none none none none []

/-- Mirrors Go `type LogRecord struct` (main.go lines 80-99).
`TimeUnixNano` is a Go `uint64`, modelled as `Nat` (no arithmetic is ever
performed on it); `SeverityNumber` is a Go `int`, modelled as `Int`. -/
structure LogRecord where
  timeUnixNano : Nat
  severityText : String
  severityNumber : Int
  body : AttributeValue
  attributes : List KeyValue

/-- Mirrors Go `type Resource struct` (main.go lines 25-27). -/
structure Resource where
  attributes : List KeyValue

/-- Mirrors Go `type Scope struct` (main.go lines 71-74). -/
structure Scope where
  name : String
  version : String

/-- Mirrors Go `type ScopeLogs struct` (main.go lines 58-65). -/
structure ScopeLogs where
  scope : Scope
  logRecords : List LogRecord

/-- Mirrors Go `type ResourceLogs struct` (main.go lines 15-21). -/
structure ResourceLogs where
  resource : Resource
  scopeLogs : List ScopeLogs

/-! ### convertToAttributeValue (main.go lines 150-167) -/

/-- A Go `interface\x7b\x7d` value as seen by the type switch in
`convertToAttributeValue`: one constructor per arm (`string`, `int`,
`int64`, `float64`, `bool`), plus `other` for a value of any dynamic type
not matched by an arm, carrying its `fmt.Sprintf` rendering (the only
thing the default arm observes about it). Go's `int` and `int64` values
are carried as their mathematical value, which the `int64(val)` widening
preserves. -/
inductive GoValue : Type where
  | str (s : String)
  | int (n : Int)
  | int64 (n : Int)
  | float64 (f : Float)
  | bool (b : Bool)
  | other (rendered : String)

/-- Mirrors Go `convertToAttributeValue` (main.go lines 150-167): the type
switch mapping host values to AttributeValue variants. -/
def convertToAttributeValue : GoValue → AttributeValue
  | .str s => .mk (some s) none none none none none []
  | .int n => .mk none none (some n) none none none []
  | .int64 n => .mk none none (some n) none none none []
  | .float64 f => .mk none none none (some f) none none []
  | .bool b => .mk none (some b) none none none none []
  | .other rendered => .mk (some rendered) none none none none none []

/-! ### Log and the ingest queue (main.go lines 101-148) -/

/-- The capacity of `ls.logQueue`, fixed by `make(chan LogRecord, 1000)`
in `NewLogSender` (main.go line 115). -/
def queueCapacity : Nat := 1000

/-- The record built by `Log` (main.go lines 123-141) before the enqueue:
body is always the string variant of the message, timestamp is the current
clock reading (passed here explicitly as `now`, the value of
`uint64(time.Now().UnixNano())`), attributes are the converted map entries
when `attrs != nil` (map iteration order abstracted as a list). -/
def logRecordOf (now : Nat) (severityText : String) (severityNumber : Int)
    (message : String) (attrs : Option (List (String × GoValue))) : LogRecord :=
  { timeUnixNano := now
    severityText := severityText
    severityNumber := severityNumber
    body := AttributeValue.mk (some message) none none none none none []
    attributes :=
      match attrs with
      | none => []
      | some l => l.map fun kv => KeyValue.mk kv.1 (convertToAttributeValue kv.2) }

/-- The non-blocking send of `Log` (main.go lines 143-147): the
`select`/`default` try-send on a buffered channel appends when the buffer
has room and otherwise leaves it untouched, reporting `false` (the Go code
then prints the drop diagnostic and returns). Totality of this function is
the model of never blocking; no error value reaches the producer. -/
def tryEnqueue (q : List LogRecord) (r : LogRecord) : List LogRecord × Bool :=
  if q.length < queueCapacity then (q ++ [r], true) else (q, false)

/-- One whole call of `Log` (main.go lines 123-148) against queue state
`q`: build the record, try to enqueue it. -/
def logPush (q : List LogRecord) (now : Nat) (severityText : String)
    (severityNumber : Int) (message : String)
    (attrs : Option (List (String × GoValue))) : List LogRecord × Bool :=
  tryEnqueue q (logRecordOf now severityText severityNumber message attrs)

/-! ### The batch assembler (processQueue, main.go lines 169-189) -/

/-- One event observed by the `select` in `processQueue`: a record
received from `ls.logQueue`, or a tick of the 3-second ticker. -/
inductive Event : Type where
  | record (r : LogRecord)
  | tick

/-- The assembler's state: the `batch` accumulator slice, plus the list of
batches passed to `sendBatch` so far (in call order). -/
structure AssemblerState where
  batch : List LogRecord
  flushes : List (List LogRecord)

/-- One iteration of the `processQueue` loop (main.go lines 174-188). On a
record: append, and if `len(batch) >= ls.batchSize` flush and clear. On a
tick: if `len(batch) > 0` flush and clear, else nothing. A flush appends
the accumulator to `flushes`; the outcome of `sendBatch` is ignored by the
loop (it returns nothing), so the state does not depend on it. -/
def processStep (batchSize : Nat) (s : AssemblerState) : Event → AssemblerState
  | .record r =>
    let batch := s.batch ++ [r]
    if batchSize ≤ batch.length then
      { batch := [], flushes := s.flushes ++ [batch] }
    else
      { batch := batch, flushes := s.flushes }
  | .tick =>
    if 0 < s.batch.length then
      { batch := [], flushes := s.flushes ++ [s.batch] }
    else
      s

/-- Running the `processQueue` loop over a finite event sequence. -/
def processRun (batchSize : Nat) (s : AssemblerState) (es : List Event) :
    AssemblerState :=
  es.foldl (processStep batchSize) s

/-! ### sendBatch outcome classification (main.go lines 250-280) -/

/-- What `ls.client.Do(req)` gives back: a connection/timeout error, or a
response with a status code and a body that either is or is not decodable
as JSON (`json.NewDecoder(resp.Body).Decode` succeeding or failing). -/
inductive TransportResult : Type where
  | error
  | response (status : Nat) (bodyDecodable : Bool)

/-- The outcome taxonomy of the design for one flush attempt. -/
inductive Outcome : Type where
  | delivered
  | rejected
  | transportFailure
  | encodeFailure
  deriving DecidableEq

/-- One diagnostic line printed by `sendBatch` through the `log` package.
`errorResponseBody` is the `Error response: ...` line, `decodeFailure` the
`Failed to decode error response: ...` line, `statusCode` the
`Received status code: ...` line, `success` the `Logs successfully sent`
line. -/
inductive DiagLine : Type where
  | marshalError
  | transportError
  | errorResponseBody
  | decodeFailure
  | statusCode (status : Nat)
  | success
  deriving DecidableEq

/-- The branch structure of `sendBatch` after the envelope is built
(main.go lines 250-280), as a classification of the environment's answer.
`encodeOk` is whether `json.Marshal` succeeded (for this payload it always
does, but the branch exists in the code). A status below 400 lands in the
`else` branch that prints the success line; a status of 400 or more is the
rejected branch. The function returns in every case: nothing is retried,
and `sendBatch` has no access to the queue or the accumulator. -/
def sendBatchOutcome (encodeOk : Bool) (tr : TransportResult) : Outcome :=
  if encodeOk = false then .encodeFailure
  else
    match tr with
    | .error => .transportFailure
    | .response status _ => if 400 ≤ status then .rejected else .delivered

/-- The diagnostic lines `sendBatch` prints for one flush attempt, in
order (main.go lines 250-280). -/
def sendBatchLog (encodeOk : Bool) (tr : TransportResult) : List DiagLine :=
  if encodeOk = false then [.marshalError]
  else
    match tr with
    | .error => [.transportError]
    | .response status bodyDecodable =>
      if 400 ≤ status then
        (if bodyDecodable then [.errorResponseBody] else [.decodeFailure]) ++
          [.statusCode status]
      else [.success]

/-- How many POST requests one call of `sendBatch` issues: one, unless
marshalling failed before the request was built. There is no loop around
`ls.client.Do`, so a batch is sent at most once. -/
def sendBatchAttempts (encodeOk : Bool) : Nat :=
  if encodeOk then 1 else 0

/-! ### A JSON syntax tree, and base64 for Go `[]byte` marshalling -/

/-- A JSON value as produced by `encoding/json`, at the syntax-tree level
(text rendering, escaping and whitespace abstracted away). Integral
number tokens (Go `uint64`/`int`/`int64` fields) are `num`; float64
number tokens are `fnum`. -/
inductive Json : Type where
  | str (s : String)
  | num (n : Int)
  | fnum (f : Float)
  | bool (b : Bool)
  | arr (elems : List Json)
  | obj (fields : List (String × Json))

/-- Field lookup on a JSON object; anything else has no fields. -/
def jsonObjLookup (j : Json) (k : String) : Option Json :=
  match j with
  | .obj fields => fields.lookup k
  | _ => none

/-- The standard base64 alphabet, as used by `base64.StdEncoding`, which
`encoding/json` applies to `[]byte` values. -/
def base64Alphabet : List Char :=
  ['A', 'B', 'C', 'D', 'E', 'F', 'G', 'H', 'I', 'J', 'K', 'L', 'M',
   'N', 'O', 'P', 'Q', 'R', 'S', 'T', 'U', 'V', 'W', 'X', 'Y', 'Z',
   'a', 'b', 'c', 'd', 'e', 'f', 'g', 'h', 'i', 'j', 'k', 'l', 'm',
   'n', 'o', 'p', 'q', 'r', 's', 't', 'u', 'v', 'w', 'x', 'y', 'z',
   '0', '1', '2', '3', '4', '5', '6', '7', '8', '9', '+', '/']

/-- The character for a six-bit group. -/
def b64Char (n : Nat) : Char := base64Alphabet.getD n 'A'

/-- The six-bit group for a character, if it is in the alphabet. -/
def b64Index (c : Char) : Option Nat :=
  base64Alphabet.findIdx? (fun d => d = c)

/-- Standard base64 encoding with padding, three bytes to four
characters, as performed by `base64.StdEncoding.EncodeToString`. -/
def b64Encode : List UInt8 → List Char
  | [] => []
  | [b1] =>
    let n1 := b1.toNat
    [b64Char (n1 / 4), b64Char (n1 % 4 * 16), '=', '=']
  | [b1, b2] =>
    let n1 := b1.toNat
    let n2 := b2.toNat
    [b64Char (n1 / 4), b64Char (n1 % 4 * 16 + n2 / 16), b64Char (n2 % 16 * 4), '=']
  | b1 :: b2 :: b3 :: rest =>
    let n1 := b1.toNat
    let n2 := b2.toNat
    let n3 := b3.toNat
    b64Char (n1 / 4) :: b64Char (n1 % 4 * 16 + n2 / 16) ::
      b64Char (n2 % 16 * 4 + n3 / 64) :: b64Char (n3 % 64) :: b64Encode rest

/-- Standard base64 decoding with padding, inverse of `b64Encode`;
rejects anything that is not a well-formed encoding. A group ending in
padding must be the last group. -/
def b64Decode : List Char → Option (List UInt8)
  | [] => some []
  | c1 :: c2 :: c3 :: c4 :: rest =>
    if c4 = '=' then
      if rest = [] then
        if c3 = '=' then
          (b64Index c1).bind fun s1 =>
          (b64Index c2).bind fun s2 =>
          if s2 % 16 = 0 then some [UInt8.ofNat (s1 * 4 + s2 / 16)] else none
        else
          (b64Index c1).bind fun s1 =>
          (b64Index c2).bind fun s2 =>
          (b64Index c3).bind fun s3 =>
          if s3 % 4 = 0 then
            some [UInt8.ofNat (s1 * 4 + s2 / 16), UInt8.ofNat (s2 % 16 * 16 + s3 / 4)]
          else none
      else none
    else
      (b64Index c1).bind fun s1 =>
      (b64Index c2).bind fun s2 =>
      (b64Index c3).bind fun s3 =>
      (b64Index c4).bind fun s4 =>
      (b64Decode rest).bind fun tail =>
      some (UInt8.ofNat (s1 * 4 + s2 / 16) :: UInt8.ofNat (s2 % 16 * 16 + s3 / 4) ::
        UInt8.ofNat (s3 % 4 * 64 + s4) :: tail)
  | _ => none

/-! ### Marshalling the envelope (json.Marshal of the payload built in
sendBatch, main.go lines 191-254) -/

/-- The fields contributed by one optional (`omitempty` pointer) struct
field: nothing when the pointer is nil, one field otherwise. -/
def optField {α : Type} (k : String) (f : α → Json) : Option α → List (String × Json)
  | none => []
  | some a => [(k, f a)]

/-- The fields contributed by the `bytesValue []byte` field: `omitempty`
drops a slice of length zero, otherwise `encoding/json` renders the bytes
as a standard-base64 string. -/
def bytesField (byv : List UInt8) : List (String × Json) :=
  if byv.isEmpty then []
  else [("bytesValue", Json.str (String.mk (b64Encode byv)))]

mutual

/-- json.Marshal of an `AttributeValue`: fields in Go struct order, each
`omitempty` pointer field present exactly when non-nil, the `[]byte`
field rendered through base64 and omitted when it has length zero. -/
def encodeAttributeValue : AttributeValue → Json
  | .mk sv bv iv dv av kv byv =>
    Json.obj
      (optField "stringValue" Json.str sv ++
       optField "boolValue" Json.bool bv ++
       optField "intValue" Json.num iv ++
       optField "doubleValue" Json.fnum dv ++
       (match av with
        | none => []
        | some a => [("arrayValue", encodeArrayValue a)]) ++
       (match kv with
        | none => []
        | some k => [("kvlistValue", encodeKvlistValue k)]) ++
       bytesField byv)

/-- json.Marshal of an `ArrayValue`: its `values` field (no omitempty). -/
def encodeArrayValue : ArrayValue → Json
  | .mk vs => Json.obj [("values", Json.arr (encodeAttrList vs))]

/-- json.Marshal of a `KvlistValue`: its `values` field (no omitempty). -/
def encodeKvlistValue : KvlistValue → Json
  | .mk vs => Json.obj [("values", Json.arr (encodeKeyValueList vs))]

/-- json.Marshal of a `KeyValue`: `key` then `value`, both always
present. -/
def encodeKeyValue : KeyValue → Json
  | .mk k v => Json.obj [("key", Json.str k), ("value", encodeAttributeValue v)]

/-- json.Marshal of each element of a `[]AttributeValue`. -/
def encodeAttrList : List AttributeValue → List Json
  | [] => []
  | v :: vs => encodeAttributeValue v :: encodeAttrList vs

/-- json.Marshal of each element of a `[]KeyValue`. -/
def encodeKeyValueList : List KeyValue → List Json
  | [] => []
  | kv :: kvs => encodeKeyValue kv :: encodeKeyValueList kvs

end

/-- json.Marshal of a `LogRecord` (struct tags at main.go lines 84-98):
`timeUnixNano`, `severityText`, `severityNumber`, `body` always present;
`attributes` has omitempty and is dropped when the slice is empty. -/
def encodeLogRecord (r : LogRecord) : Json :=
  Json.obj
    ([("timeUnixNano", Json.num (r.timeUnixNano : Int)),
      ("severityText", Json.str r.severityText),
      ("severityNumber", Json.num r.severityNumber),
      ("body", encodeAttributeValue r.body)] ++
     (if r.attributes.isEmpty then []
      else [("attributes", Json.arr (r.attributes.map encodeKeyValue))]))

/-- json.Marshal of a `Scope` (tags at main.go lines 72-73): `name`
always present, `version` has omitempty and is dropped when empty. -/
def encodeScope (s : Scope) : Json :=
  Json.obj
    ([("name", Json.str s.name)] ++
     (if s.version = "" then [] else [("version", Json.str s.version)]))

/-- json.Marshal of a `ScopeLogs` (tags at main.go lines 62-64): `scope`
always present, `log_records` has omitempty. -/
def encodeScopeLogs (sl : ScopeLogs) : Json :=
  Json.obj
    ([("scope", encodeScope sl.scope)] ++
     (if sl.logRecords.isEmpty then []
      else [("log_records", Json.arr (sl.logRecords.map encodeLogRecord))]))

/-- json.Marshal of a `Resource` (tag at main.go line 26): `attributes`
always present (no omitempty). -/
def encodeResource (res : Resource) : Json :=
  Json.obj [("attributes", Json.arr (res.attributes.map encodeKeyValue))]

/-- json.Marshal of a `ResourceLogs` (tags at main.go lines 18-20):
`resource` always present, `scope_logs` has omitempty. -/
def encodeResourceLogs (rl : ResourceLogs) : Json :=
  Json.obj
    ([("resource", encodeResource rl.resource)] ++
     (if rl.scopeLogs.isEmpty then []
      else [("scope_logs", Json.arr (rl.scopeLogs.map encodeScopeLogs))]))

/-- The static resource sendBatch builds on every call (main.go lines
192-213). -/
def defaultResource : Resource :=
  ⟨[KeyValue.mk "service.name" (strAttr "my-go-app"),
    KeyValue.mk "service.version" (strAttr "1.0.0"),
    KeyValue.mk "telemetry.sdk.language" (strAttr "go")]⟩

/-- The static scope sendBatch builds on every call (main.go lines
214-217). -/
def defaultScope : Scope := ⟨"custom-logger", "1.0"⟩

/-- The `ResourceLogs` value sendBatch wraps a batch in (main.go lines
218-231): one scope-logs entry carrying the whole batch. -/
def sendBatchResourceLogs (batch : List LogRecord) : ResourceLogs :=
  ⟨defaultResource, [⟨defaultScope, batch⟩]⟩

/-- The serialized request body of sendBatch: json.Marshal of the
`map[string]interface\x7b\x7d\x7b"resourceLogs": []ResourceLogs\x7b...\x7d\x7d`
payload (main.go lines 224-231, 250). -/
def sendBatchPayload (batch : List LogRecord) : Json :=
  Json.obj [("resourceLogs", Json.arr [encodeResourceLogs (sendBatchResourceLogs batch)])]

/-! ### Decoding the envelope

The program itself never unmarshals the envelope; these readers are the
receiver's inverse reading of the wire format of section 6 of the design
(an `encoding/json` Unmarshal into the same structs): field lookup by
key, with Go zero values for absent fields, failing on a field of the
wrong shape. -/

/-- Reads an optional string-typed field (`*string` in Go). -/
def decodeStrOpt : Option Json → Option (Option String)
  | none => some none
  | some (.str s) => some (some s)
  | some _ => none

/-- Reads an optional bool-typed field (`*bool` in Go). -/
def decodeBoolOpt : Option Json → Option (Option Bool)
  | none => some none
  | some (.bool b) => some (some b)
  | some _ => none

/-- Reads an optional int64-typed field (`*int64` in Go). -/
def decodeIntOpt : Option Json → Option (Option Int)
  | none => some none
  | some (.num n) => some (some n)
  | some _ => none

/-- Reads an optional float64-typed field (`*float64` in Go). -/
def decodeFloatOpt : Option Json → Option (Option Float)
  | none => some none
  | some (.fnum f) => some (some f)
  | some _ => none

/-- Reads a `[]byte` field: absent means nil, present must be a base64
string. -/
def decodeBytesOpt : Option Json → Option (List UInt8)
  | none => some []
  | some (.str s) => b64Decode s.data
  | some _ => none

mutual

/-- Unmarshal of an `AttributeValue`: an object, each field read from
its key, absent fields giving Go zero values. -/
def decodeAttributeValue : Json → Option AttributeValue
  | .obj fields =>
    (decodeStrOpt (fields.lookup "stringValue")).bind fun sv =>
    (decodeBoolOpt (fields.lookup "boolValue")).bind fun bv =>
    (decodeIntOpt (fields.lookup "intValue")).bind fun iv =>
    (decodeFloatOpt (fields.lookup "doubleValue")).bind fun dv =>
    (decodeArrayField fields).bind fun av =>
    (decodeKvlistField fields).bind fun kv =>
    (decodeBytesOpt (fields.lookup "bytesValue")).bind fun byv =>
    some (.mk sv bv iv dv av kv byv)
  | _ => none

/-- Finds the `arrayValue` field (first occurrence, as produced by the
encoder, which never duplicates keys) and decodes it; absent means a nil
pointer. -/
def decodeArrayField : List (String × Json) → Option (Option ArrayValue)
  | [] => some none
  | (k, j) :: rest =>
    if k = "arrayValue" then (decodeArrayValue j).map some
    else decodeArrayField rest

/-- Finds the `kvlistValue` field and decodes it; absent means a nil
pointer. -/
def decodeKvlistField : List (String × Json) → Option (Option KvlistValue)
  | [] => some none
  | (k, j) :: rest =>
    if k = "kvlistValue" then (decodeKvlistValue j).map some
    else decodeKvlistField rest

/-- Unmarshal of an `ArrayValue`: its `values` field, absent meaning a
nil slice. -/
def decodeArrayValue : Json → Option ArrayValue
  | .obj fields => (decodeValuesAttrField fields).map ArrayValue.mk
  | _ => none

/-- Unmarshal of a `KvlistValue`: its `values` field, absent meaning a
nil slice. -/
def decodeKvlistValue : Json → Option KvlistValue
  | .obj fields => (decodeValuesKVField fields).map KvlistValue.mk
  | _ => none

/-- Finds the `values` field of an `ArrayValue` object and decodes the
element list. -/
def decodeValuesAttrField : List (String × Json) → Option (List AttributeValue)
  | [] => some []
  | (k, j) :: rest =>
    if k = "values" then
      match j with
      | .arr js => decodeAttrList js
      | _ => none
    else decodeValuesAttrField rest

/-- Finds the `values` field of a `KvlistValue` object and decodes the
element list. -/
def decodeValuesKVField : List (String × Json) → Option (List KeyValue)
  | [] => some []
  | (k, j) :: rest =>
    if k = "values" then
      match j with
      | .arr js => decodeKeyValueList js
      | _ => none
    else decodeValuesKVField rest

/-- Unmarshal of each element of a `[]AttributeValue`. -/
def decodeAttrList : List Json → Option (List AttributeValue)
  | [] => some []
  | j :: js =>
    (decodeAttributeValue j).bind fun v =>
    (decodeAttrList js).bind fun vs =>
    some (v :: vs)

/-- Unmarshal of a `KeyValue`: `key` (absent meaning the empty string)
and `value` (absent meaning the zero `AttributeValue`). -/
def decodeKeyValue : Json → Option KeyValue
  | .obj fields =>
    (decodeStrOpt (fields.lookup "key")).bind fun k =>
    (decodeValueField fields).bind fun v =>
    some (.mk (k.getD "") v)
  | _ => none

/-- Finds the `value` field of a `KeyValue` object and decodes it;
absent means Go's zero `AttributeValue`. -/
def decodeValueField : List (String × Json) → Option AttributeValue
  | [] => some (.mk none none none none none none [])
  | (k, j) :: rest =>
    if k = "value" then decodeAttributeValue j
    else decodeValueField rest

/-- Unmarshal of each element of a `[]KeyValue`. -/
def decodeKeyValueList : List Json → Option (List KeyValue)
  | [] => some []
  | j :: js =>
    (decodeKeyValue j).bind fun kv =>
    (decodeKeyValueList js).bind fun kvs =>
    some (kv :: kvs)

end

/-- Reads a `uint64` field: absent means 0, present must be a
non-negative integral number token. -/
def decodeUInt64Field (o : Option Json) : Option Nat :=
  match o with
  | none => some 0
  | some (.num n) => if 0 ≤ n then some n.toNat else none
  | some _ => none

/-- Reads an `int` field: absent means 0. -/
def decodeIntField (o : Option Json) : Option Int :=
  match o with
  | none => some 0
  | some (.num n) => some n
  | some _ => none

/-- Reads a plain `string` field: absent means the empty string. -/
def decodeStrField (o : Option Json) : Option String :=
  match o with
  | none => some ""
  | some (.str s) => some s
  | some _ => none

/-- Reads a slice-of-`KeyValue` field: absent (omitempty) means the
empty slice. -/
def decodeKeyValuesField (o : Option Json) : Option (List KeyValue) :=
  match o with
  | none => some []
  | some (.arr js) => decodeKeyValueList js
  | some _ => none

/-- Reads an `AttributeValue`-typed struct field: absent means the zero
value. -/
def decodeBodyField (o : Option Json) : Option AttributeValue :=
  match o with
  | none => some (.mk none none none none none none [])
  | some j => decodeAttributeValue j

/-- Unmarshal of a `LogRecord` from the envelope. -/
def decodeLogRecord : Json → Option LogRecord
  | .obj fields =>
    (decodeUInt64Field (fields.lookup "timeUnixNano")).bind fun t =>
    (decodeStrField (fields.lookup "severityText")).bind fun st =>
    (decodeIntField (fields.lookup "severityNumber")).bind fun sn =>
    (decodeBodyField (fields.lookup "body")).bind fun b =>
    (decodeKeyValuesField (fields.lookup "attributes")).bind fun attrs =>
    some ⟨t, st, sn, b, attrs⟩
  | _ => none

/-- Unmarshal of each element of a `[]*LogRecord`. -/
def decodeLogRecordList : List Json → Option (List LogRecord)
  | [] => some []
  | j :: js =>
    (decodeLogRecord j).bind fun r =>
    (decodeLogRecordList js).bind fun rs =>
    some (r :: rs)

/-- Unmarshal of a `Scope`. -/
def decodeScope (o : Option Json) : Option Scope :=
  match o with
  | none => some ⟨"", ""⟩
  | some (.obj fields) =>
    (decodeStrField (fields.lookup "name")).bind fun n =>
    (decodeStrField (fields.lookup "version")).bind fun v =>
    some ⟨n, v⟩
  | some _ => none

/-- Unmarshal of a `ScopeLogs` entry. -/
def decodeScopeLogs : Json → Option ScopeLogs
  | .obj fields =>
    (decodeScope (fields.lookup "scope")).bind fun sc =>
    (match fields.lookup "log_records" with
     | none => some []
     | some (.arr js) => decodeLogRecordList js
     | some _ => none).bind fun rs =>
    some ⟨sc, rs⟩
  | _ => none

/-- Unmarshal of each element of a `[]*ScopeLogs`. -/
def decodeScopeLogsList : List Json → Option (List ScopeLogs)
  | [] => some []
  | j :: js =>
    (decodeScopeLogs j).bind fun sl =>
    (decodeScopeLogsList js).bind fun sls =>
    some (sl :: sls)

/-- Unmarshal of a `Resource`. -/
def decodeResource (o : Option Json) : Option Resource :=
  match o with
  | none => some ⟨[]⟩
  | some (.obj fields) =>
    (decodeKeyValuesField (fields.lookup "attributes")).map Resource.mk
  | some _ => none

/-- Unmarshal of a `ResourceLogs` entry. -/
def decodeResourceLogs : Json → Option ResourceLogs
  | .obj fields =>
    (decodeResource (fields.lookup "resource")).bind fun res =>
    (match fields.lookup "scope_logs" with
     | none => some []
     | some (.arr js) => decodeScopeLogsList js
     | some _ => none).bind fun sls =>
    some ⟨res, sls⟩
  | _ => none

/-- Unmarshal of each element of a `[]ResourceLogs`. -/
def decodeResourceLogsList : List Json → Option (List ResourceLogs)
  | [] => some []
  | j :: js =>
    (decodeResourceLogs j).bind fun rl =>
    (decodeResourceLogsList js).bind fun rls =>
    some (rl :: rls)

/-- The record set a receiver reads back from an envelope: decode the
`resourceLogs` list and flatten every scope-logs entry's records, in
order. -/
def decodePayloadRecords (j : Json) : Option (List LogRecord) :=
  match j with
  | .obj fields =>
    (match fields.lookup "resourceLogs" with
     | some (.arr js) => decodeResourceLogsList js
     | _ => none).bind fun rls =>
    some (rls.flatMap fun rl => rl.scopeLogs.flatMap fun sl => sl.logRecords)
  | _ => none

/-! ### The one-of variant invariant (spec section 3) -/

/-- How many of the seven variant fields of an `AttributeValue` are
populated (a non-nil pointer, or for `bytesValue` a non-empty slice). -/
def variantCount : AttributeValue → Nat
  | .mk sv bv iv dv av kv byv =>
    (if sv.isSome then 1 else 0) + (if bv.isSome then 1 else 0) +
    (if iv.isSome then 1 else 0) + (if dv.isSome then 1 else 0) +
    (if av.isSome then 1 else 0) + (if kv.isSome then 1 else 0) +
    (if byv.isEmpty then 0 else 1)

/-- A concrete record for instantiating universally quantified theorems:
the record `Log("INFO", 9, "Application started", nil)` builds at clock
reading 1 (main.go line 292). -/
def sampleRec : LogRecord :=
  ⟨1, "INFO", 9, strAttr "Application started", []⟩

/-! ## Theorems -/

/-! ### Assembler run lemmas -/

theorem processRun_append (bs : Nat) (s : AssemblerState) (l1 l2 : List Event) :
    processRun bs s (l1 ++ l2) = processRun bs (processRun bs s l1) l2 := by
  simp [processRun, List.foldl_append]

theorem processRun_records_no_flush (bs : Nat) (rs : List LogRecord)
    (s : AssemblerState) (h : s.batch.length + rs.length < bs) :
    processRun bs s (rs.map Event.record) = ⟨s.batch ++ rs, s.flushes⟩ := by
  induction rs generalizing s with
  | nil => simp [processRun]
  | cons r rs ih =>
    have hstep : processStep bs s (.record r) = ⟨s.batch ++ [r], s.flushes⟩ := by
      simp only [processStep]
      rw [if_neg]
      simp only [List.length_append, List.length_cons, List.length_nil]
      simp only [List.length_cons] at h
      omega
    calc processRun bs s ((r :: rs).map Event.record)
        = processRun bs (processStep bs s (.record r)) (rs.map Event.record) := by
          simp [processRun]
      _ = ⟨(s.batch ++ [r]) ++ rs, s.flushes⟩ := by
          rw [hstep]
          exact ih ⟨s.batch ++ [r], s.flushes⟩ (by simp only [List.length_append,
            List.length_cons, List.length_nil] at h ⊢; omega)
      _ = ⟨s.batch ++ (r :: rs), s.flushes⟩ := by simp

/-! ### Claim C1 -/

/-- C1: with batchSize 10, for any fifteen records fed to the assembler
with no tick interleaved, the run of the fifteen receive events alone
produces exactly one flush, holding records 1..10 in order (the
size-threshold flush), leaving records 11..15 accumulated; the next tick
then produces exactly the second flush, holding records 11..15 in order,
so the whole run flushes exactly twice. -/
theorem claim1_two_flushes (rs : List LogRecord) (h : rs.length = 15) :
    processRun 10 ⟨[], []⟩ (rs.map Event.record) = ⟨rs.drop 10, [rs.take 10]⟩ ∧
    processRun 10 ⟨[], []⟩ (rs.map Event.record ++ [Event.tick]) =
      ⟨[], [rs.take 10, rs.drop 10]⟩ := by
  match rs, h with
  | [r1, r2, r3, r4, r5, r6, r7, r8, r9, r10, r11, r12, r13, r14, r15], _ =>
    refine ⟨?_, ?_⟩ <;> simp [processRun, processStep]

/-- Witness for C1 at a concrete list of fifteen records. -/
theorem claim1_two_flushes_witness :
    processRun 10 ⟨[], []⟩ ((List.replicate 15 sampleRec).map Event.record) =
      ⟨(List.replicate 15 sampleRec).drop 10, [(List.replicate 15 sampleRec).take 10]⟩ ∧
    processRun 10 ⟨[], []⟩ ((List.replicate 15 sampleRec).map Event.record ++ [Event.tick]) =
      ⟨[], [(List.replicate 15 sampleRec).take 10, (List.replicate 15 sampleRec).drop 10]⟩ :=
  claim1_two_flushes (List.replicate 15 sampleRec) (by simp)

/-! ### Claim C2 -/

/-- C2: when the queue already holds `queueCapacity` records, a `Log`
call leaves the queue exactly as it was and reports the drop: the new
record is rejected, nothing is evicted, and (the function being total
with no error component in its result) nothing blocks and no error
reaches the producer. -/
theorem claim2_drop_on_full (q : List LogRecord) (now : Nat)
    (severityText : String) (severityNumber : Int) (message : String)
    (attrs : Option (List (String × GoValue)))
    (h : q.length = queueCapacity) :
    logPush q now severityText severityNumber message attrs = (q, false) := by
  simp [logPush, tryEnqueue, h]

/-- Witness for C2 at a queue filled to capacity. -/
theorem claim2_drop_on_full_witness :
    logPush (List.replicate queueCapacity sampleRec) 5 "INFO" 9 "m" none =
      (List.replicate queueCapacity sampleRec, false) :=
  claim2_drop_on_full (List.replicate queueCapacity sampleRec) 5 "INFO" 9 "m" none
    (by simp)

/-! ### Claim C3 -/

/-- C3: the conversion is total by construction, and maps each arm of the
type switch to exactly the claimed variant: a string to the String
variant with the same string, Go `int` and `int64` values to the Int64
variant with the same numeric value, a float64 to the Double variant
with the same value, a bool to the Bool variant, and a value of any
other dynamic type to the String variant holding its `fmt.Sprintf`
rendering. -/
theorem claim3_conversion_total :
    (∀ s, convertToAttributeValue (.str s) = .mk (some s) none none none none none []) ∧
    (∀ n, convertToAttributeValue (.int n) = .mk none none (some n) none none none []) ∧
    (∀ n, convertToAttributeValue (.int64 n) = .mk none none (some n) none none none []) ∧
    (∀ f, convertToAttributeValue (.float64 f) = .mk none none none (some f) none none []) ∧
    (∀ b, convertToAttributeValue (.bool b) = .mk none (some b) none none none none []) ∧
    (∀ rendered, convertToAttributeValue (.other rendered) =
      .mk (some rendered) none none none none none []) :=
  ⟨fun _ => rfl, fun _ => rfl, fun _ => rfl, fun _ => rfl, fun _ => rfl, fun _ => rfl⟩

/-! ### Claim C6 -/

/-- C6: with batchSize 10 and fewer than ten records received, no flush
happens before a tick (the run of the receive events alone flushes
nothing and accumulates everything); the following tick flushes exactly
the pending records when there are any, and is a no-op on an empty
accumulator. -/
theorem claim6_timer_flush (rs : List LogRecord) (h : rs.length < 10) :
    processRun 10 ⟨[], []⟩ (rs.map Event.record) = ⟨rs, []⟩ ∧
    processRun 10 ⟨[], []⟩ (rs.map Event.record ++ [Event.tick]) =
      ⟨[], if rs.isEmpty then [] else [rs]⟩ := by
  have h1 : processRun 10 ⟨[], []⟩ (rs.map Event.record) = ⟨rs, []⟩ := by
    have := processRun_records_no_flush 10 rs ⟨[], []⟩ (by simpa using h)
    simpa using this
  refine ⟨h1, ?_⟩
  rw [processRun_append, h1]
  cases rs with
  | nil => simp [processRun, processStep]
  | cons a l => simp [processRun, processStep]

/-- Witness for C6 at three concrete records. -/
theorem claim6_timer_flush_witness :
    processRun 10 ⟨[], []⟩ ((List.replicate 3 sampleRec).map Event.record) =
      ⟨List.replicate 3 sampleRec, []⟩ ∧
    processRun 10 ⟨[], []⟩ ((List.replicate 3 sampleRec).map Event.record ++ [Event.tick]) =
      ⟨[], if (List.replicate 3 sampleRec).isEmpty then [] else [List.replicate 3 sampleRec]⟩ :=
  claim6_timer_flush (List.replicate 3 sampleRec) (by simp)

/-! ### Claim C4 -/

/-- Counterexample to C4 as stated: the code's success branch is
`status < 400`, not `2xx or 3xx`. A response with the informational
status 100 is classified `delivered` although 100 is not in 2xx/3xx. -/
theorem claim4_counterexample :
    sendBatchOutcome true (.response 100 true) = .delivered ∧
    ¬(200 ≤ 100 ∧ 100 ≤ 399) := by
  exact ⟨rfl, by omega⟩

/-- C4 (amended): the outcome of a flush attempt is exactly one of the
four cases, with `delivered` holding when and only when the status is
below 400 (rather than exactly 2xx/3xx), `rejected` when and only when
it is 400 or more, `transportFailure` on a connection error,
`encodeFailure` on a serialization error; at most one POST is ever
issued for a batch, and a flush in the assembler submits its batch
exactly once and clears the accumulator — the loop state never depends
on the outcome (the model's step function takes no outcome at all,
mirroring `sendBatch` returning nothing), so no failure re-queues or
retries anything. -/
theorem claim4_outcome_classification (encodeOk : Bool) (tr : TransportResult) :
    (sendBatchOutcome encodeOk tr = .encodeFailure ↔ encodeOk = false) ∧
    (sendBatchOutcome encodeOk tr = .transportFailure ↔
      encodeOk = true ∧ tr = .error) ∧
    (sendBatchOutcome encodeOk tr = .rejected ↔
      encodeOk = true ∧ ∃ status dec, tr = .response status dec ∧ 400 ≤ status) ∧
    (sendBatchOutcome encodeOk tr = .delivered ↔
      encodeOk = true ∧ ∃ status dec, tr = .response status dec ∧ status < 400) ∧
    sendBatchAttempts encodeOk ≤ 1 ∧
    (∀ (bs : Nat) (s : AssemblerState) (e : Event),
      (processStep bs s e).flushes = s.flushes ∨
      ((processStep bs s e).batch = [] ∧
        ∃ b, (processStep bs s e).flushes = s.flushes ++ [b])) := by
  have hstep : ∀ (bs : Nat) (s : AssemblerState) (e : Event),
      (processStep bs s e).flushes = s.flushes ∨
      ((processStep bs s e).batch = [] ∧
        ∃ b, (processStep bs s e).flushes = s.flushes ++ [b]) := by
    intro bs s e
    cases e with
    | record r =>
      simp only [processStep]
      split
      · exact Or.inr ⟨rfl, _, rfl⟩
      · exact Or.inl rfl
    | tick =>
      simp only [processStep]
      split
      · exact Or.inr ⟨rfl, _, rfl⟩
      · exact Or.inl rfl
  cases encodeOk with
  | false =>
    cases tr <;> simp [sendBatchOutcome, sendBatchAttempts, hstep]
  | true =>
    cases tr with
    | error => simp [sendBatchOutcome, sendBatchAttempts, hstep]
    | response status dec =>
      by_cases hst : 400 ≤ status
      · simp [sendBatchOutcome, sendBatchAttempts, hst, hstep]
      · simp [sendBatchOutcome, sendBatchAttempts, hst, hstep]
        omega

/-! ### Claim C9 -/

/-- C9: a flush answered with status 422 and an undecodable body prints
the decode-failure diagnostic exactly once (followed by the status-code
line), and only one POST was issued for the batch — nothing is retried
or re-queued. -/
theorem claim9_rejected_undecodable :
    sendBatchLog true (.response 422 false) =
      [DiagLine.decodeFailure, DiagLine.statusCode 422] ∧
    (sendBatchLog true (.response 422 false)).count DiagLine.decodeFailure = 1 ∧
    sendBatchAttempts true = 1 := by
  decide

/-! ### Claim C7 -/

/-- C7: every AttributeValue the program constructs — a conversion
result, the body `Log` builds, an attribute value of a record `Log`
builds, or a static resource attribute — has exactly one variant
populated; in particular none ever has two or more variants set, and
the only other shape the data model admits (all variants absent) is
never exceeded. -/
theorem claim7_one_variant :
    (∀ v : GoValue, variantCount (convertToAttributeValue v) = 1) ∧
    (∀ (now : Nat) (st : String) (sn : Int) (msg : String) attrs,
      variantCount (logRecordOf now st sn msg attrs).body = 1) ∧
    (∀ (now : Nat) (st : String) (sn : Int) (msg : String) attrs,
      ∀ kv ∈ (logRecordOf now st sn msg attrs).attributes,
        variantCount kv.value = 1) ∧
    (∀ kv ∈ defaultResource.attributes, variantCount kv.value = 1) := by
  have hconv : ∀ v : GoValue, variantCount (convertToAttributeValue v) = 1 := by
    intro v; cases v <;> rfl
  refine ⟨hconv, fun _ _ _ _ _ => rfl, ?_, ?_⟩
  · intro now st sn msg attrs kv hkv
    cases attrs with
    | none => simp [logRecordOf] at hkv
    | some l =>
      simp only [logRecordOf, List.mem_map] at hkv
      obtain ⟨⟨k, gv⟩, _, rfl⟩ := hkv
      exact hconv gv
  · intro kv hkv
    simp only [defaultResource, List.mem_cons, List.not_mem_nil, or_false] at hkv
    rcases hkv with rfl | rfl | rfl <;> rfl

/-- Witness for C7's membership-hypothesis components at the attribute
map of the example `Log("WARN", 13, ...)` call (main.go lines 293-298)
and the first static resource attribute. -/
theorem claim7_one_variant_witness :
    variantCount (KeyValue.mk "retry.count"
      (convertToAttributeValue (.int 3))).value = 1 ∧
    variantCount (KeyValue.mk "service.name" (strAttr "my-go-app")).value = 1 :=
  ⟨(claim7_one_variant.2.2.1 7 "WARN" 13 "Retry attempt"
      (some [("retry.count", .int 3)])
      (KeyValue.mk "retry.count" (convertToAttributeValue (.int 3)))
      (by simp [logRecordOf])),
   (claim7_one_variant.2.2.2 (KeyValue.mk "service.name" (strAttr "my-go-app"))
      (by simp [defaultResource]))⟩

/-! ### Claim C10 -/

/-- C10: the record `Log` constructs has as body exactly the String
variant of the message (never structured, never unset), and its
timestamp is the clock reading taken in the call, hence non-zero
whenever the clock is past the epoch. -/
theorem claim10_body_and_timestamp (now : Nat) (severityText : String)
    (severityNumber : Int) (message : String)
    (attrs : Option (List (String × GoValue))) (h : 0 < now) :
    (logRecordOf now severityText severityNumber message attrs).body =
      .mk (some message) none none none none none [] ∧
    (logRecordOf now severityText severityNumber message attrs).timeUnixNano = now ∧
    (logRecordOf now severityText severityNumber message attrs).timeUnixNano ≠ 0 := by
  refine ⟨rfl, rfl, ?_⟩
  simp only [logRecordOf]
  omega

/-- Witness for C10 at the first example call of main.go. -/
theorem claim10_body_and_timestamp_witness :
    (logRecordOf 1 "INFO" 9 "Application started" none).body =
      .mk (some "Application started") none none none none none [] ∧
    (logRecordOf 1 "INFO" 9 "Application started" none).timeUnixNano = 1 ∧
    (logRecordOf 1 "INFO" 9 "Application started" none).timeUnixNano ≠ 0 :=
  claim10_body_and_timestamp 1 "INFO" 9 "Application started" none (by decide)

/-! ### base64 lemmas -/

theorem uint8_toNat_ofNat (n : Nat) : (UInt8.ofNat n).toNat = n % 256 := rfl

theorem uint8_ofNat_toNat (b : UInt8) : UInt8.ofNat b.toNat = b := by
  apply UInt8.ext
  rw [uint8_toNat_ofNat]
  have h : b.toNat < 256 := UInt8.toNat_lt b
  omega

theorem b64Index_b64Char : ∀ n, n < 64 → b64Index (b64Char n) = some n := by decide

theorem b64Char_ne_pad : ∀ n, n < 64 → b64Char n ≠ '=' := by decide

theorem b64Decode_b64Encode (l : List UInt8) : b64Decode (b64Encode l) = some l := by
  match l with
  | [] => rfl
  | [b1] =>
    have h1 : b1.toNat < 256 := UInt8.toNat_lt b1
    have e1 : b64Index (b64Char (b1.toNat / 4)) = some (b1.toNat / 4) :=
      b64Index_b64Char _ (by omega)
    have e2 : b64Index (b64Char (b1.toNat % 4 * 16)) = some (b1.toNat % 4 * 16) :=
      b64Index_b64Char _ (by omega)
    have hmod : b1.toNat % 4 * 16 % 16 = 0 := by omega
    have hval : b1.toNat / 4 * 4 + b1.toNat % 4 * 16 / 16 = b1.toNat := by omega
    simp [b64Encode, b64Decode, e1, e2, hmod, hval, uint8_ofNat_toNat]
    apply UInt8.ext
    rw [uint8_toNat_ofNat]
    omega
  | [b1, b2] =>
    have h1 : b1.toNat < 256 := UInt8.toNat_lt b1
    have h2 : b2.toNat < 256 := UInt8.toNat_lt b2
    have e1 : b64Index (b64Char (b1.toNat / 4)) = some (b1.toNat / 4) :=
      b64Index_b64Char _ (by omega)
    have e2 : b64Index (b64Char (b1.toNat % 4 * 16 + b2.toNat / 16)) =
        some (b1.toNat % 4 * 16 + b2.toNat / 16) :=
      b64Index_b64Char _ (by omega)
    have e3 : b64Index (b64Char (b2.toNat % 16 * 4)) = some (b2.toNat % 16 * 4) :=
      b64Index_b64Char _ (by omega)
    have hne : ¬ b64Char (b2.toNat % 16 * 4) = '=' := b64Char_ne_pad _ (by omega)
    have hmod : b2.toNat % 16 * 4 % 4 = 0 := by omega
    have hval1 : b1.toNat / 4 * 4 + (b1.toNat % 4 * 16 + b2.toNat / 16) / 16 = b1.toNat := by
      omega
    have hval2 : (b1.toNat % 4 * 16 + b2.toNat / 16) % 16 * 16 + b2.toNat % 16 * 4 / 4 =
        b2.toNat := by omega
    simp [b64Encode, b64Decode, e1, e2, e3, hne, hmod, hval1, hval2, uint8_ofNat_toNat]
    apply UInt8.ext
    rw [uint8_toNat_ofNat]
    omega
  | b1 :: b2 :: b3 :: rest =>
    have ih := b64Decode_b64Encode rest
    have h1 : b1.toNat < 256 := UInt8.toNat_lt b1
    have h2 : b2.toNat < 256 := UInt8.toNat_lt b2
    have h3 : b3.toNat < 256 := UInt8.toNat_lt b3
    have e1 : b64Index (b64Char (b1.toNat / 4)) = some (b1.toNat / 4) :=
      b64Index_b64Char _ (by omega)
    have e2 : b64Index (b64Char (b1.toNat % 4 * 16 + b2.toNat / 16)) =
        some (b1.toNat % 4 * 16 + b2.toNat / 16) :=
      b64Index_b64Char _ (by omega)
    have e3 : b64Index (b64Char (b2.toNat % 16 * 4 + b3.toNat / 64)) =
        some (b2.toNat % 16 * 4 + b3.toNat / 64) :=
      b64Index_b64Char _ (by omega)
    have e4 : b64Index (b64Char (b3.toNat % 64)) = some (b3.toNat % 64) :=
      b64Index_b64Char _ (by omega)
    have hne : ¬ b64Char (b3.toNat % 64) = '=' := b64Char_ne_pad _ (by omega)
    have hval1 : b1.toNat / 4 * 4 + (b1.toNat % 4 * 16 + b2.toNat / 16) / 16 = b1.toNat := by
      omega
    have hval2 : (b1.toNat % 4 * 16 + b2.toNat / 16) % 16 * 16 +
        (b2.toNat % 16 * 4 + b3.toNat / 64) / 4 = b2.toNat := by omega
    have hval3 : (b2.toNat % 16 * 4 + b3.toNat / 64) % 4 * 64 + b3.toNat % 64 =
        b3.toNat := by omega
    simp [b64Encode, b64Decode, e1, e2, e3, e4, hne, ih, hval1, hval2, hval3,
      uint8_ofNat_toNat]

/-! ### Field lookup lemmas -/

theorem lookup_append (l1 l2 : List (String × Json)) (k : String) :
    (l1 ++ l2).lookup k = (l1.lookup k).or (l2.lookup k) := by
  induction l1 with
  | nil => simp
  | cons p t ih =>
    cases p with
    | mk k1 v1 =>
      by_cases h : k = k1
      · simp [List.lookup, h, ih]
      · have hb : (k == k1) = false := beq_eq_false_iff_ne.mpr h
        simp [List.lookup, hb, ih]

theorem lookup_optField {α : Type} (kq k : String) (f : α → Json) (o : Option α) :
    (optField k f o).lookup kq = if kq = k then o.map f else none := by
  cases o with
  | none => simp [optField]
  | some a =>
    by_cases h : kq = k
    · simp [optField, List.lookup, h]
    · have hb : (kq == k) = false := beq_eq_false_iff_ne.mpr h
      simp [optField, List.lookup, h, hb]

theorem lookup_bytesField (kq : String) (byv : List UInt8) :
    (bytesField byv).lookup kq =
      if kq = "bytesValue" then
        (if byv.isEmpty then none else some (Json.str (String.mk (b64Encode byv))))
      else none := by
  by_cases hb : byv.isEmpty <;> by_cases h : kq = "bytesValue"
  · simp [bytesField, hb, h, List.lookup]
  · simp [bytesField, hb, h, List.lookup]
  · simp [bytesField, hb, h, List.lookup]
  · have hbq : (kq == "bytesValue") = false := beq_eq_false_iff_ne.mpr h
    simp [bytesField, hb, h, hbq, List.lookup]

theorem decodeStrOpt_map (o : Option String) : decodeStrOpt (o.map Json.str) = some o := by
  cases o <;> rfl

theorem decodeBoolOpt_map (o : Option Bool) : decodeBoolOpt (o.map Json.bool) = some o := by
  cases o <;> rfl

theorem decodeIntOpt_map (o : Option Int) : decodeIntOpt (o.map Json.num) = some o := by
  cases o <;> rfl

theorem decodeFloatOpt_map (o : Option Float) : decodeFloatOpt (o.map Json.fnum) = some o := by
  cases o <;> rfl

theorem decodeBytesOpt_bytesField (byv : List UInt8) :
    decodeBytesOpt ((bytesField byv).lookup "bytesValue") = some byv := by
  cases byv with
  | nil => rfl
  | cons b t =>
    have h : (bytesField (b :: t)).lookup "bytesValue" =
        some (Json.str (String.mk (b64Encode (b :: t)))) := by
      simp [lookup_bytesField]
    rw [h]
    show b64Decode (String.mk (b64Encode (b :: t))).data = some (b :: t)
    rw [show (String.mk (b64Encode (b :: t))).data = b64Encode (b :: t) from rfl]
    exact b64Decode_b64Encode (b :: t)

theorem decodeArrayField_optField {α : Type} (k : String) (f : α → Json) (o : Option α)
    (rest : List (String × Json)) (h : k ≠ "arrayValue") :
    decodeArrayField (optField k f o ++ rest) = decodeArrayField rest := by
  cases o <;> simp [optField, decodeArrayField, h]

theorem decodeArrayField_bytesField (byv : List UInt8) :
    decodeArrayField (bytesField byv) = some none := by
  by_cases hb : byv.isEmpty <;> simp [bytesField, hb, decodeArrayField]

theorem decodeKvlistField_optField {α : Type} (k : String) (f : α → Json) (o : Option α)
    (rest : List (String × Json)) (h : k ≠ "kvlistValue") :
    decodeKvlistField (optField k f o ++ rest) = decodeKvlistField rest := by
  cases o <;> simp [optField, decodeKvlistField, h]

theorem decodeKvlistField_bytesField (byv : List UInt8) :
    decodeKvlistField (bytesField byv) = some none := by
  by_cases hb : byv.isEmpty <;> simp [bytesField, hb, decodeKvlistField]

theorem decodeBytesOpt_ite (byv : List UInt8) :
    decodeBytesOpt (if byv = [] then none
      else some (Json.str (String.mk (b64Encode byv)))) = some byv := by
  cases byv with
  | nil => rfl
  | cons b t => exact b64Decode_b64Encode (b :: t)

/-! ### The attribute-layer roundtrip -/

mutual

theorem decode_encode_attr (v : AttributeValue) :
    decodeAttributeValue (encodeAttributeValue v) = some v := by
  match v with
  | .mk sv bv iv dv av kv byv =>
    cases av with
    | none =>
      cases kv with
      | none =>
        simp [encodeAttributeValue, decodeAttributeValue, lookup_append,
          lookup_optField, lookup_bytesField, decodeStrOpt_map, decodeBoolOpt_map,
          decodeIntOpt_map, decodeFloatOpt_map, decodeArrayField_optField,
          decodeArrayField_bytesField, decodeKvlistField_optField,
          decodeKvlistField_bytesField, decodeBytesOpt_ite, Option.bind]
      | some k =>
        simp [encodeAttributeValue, decodeAttributeValue, lookup_append,
          lookup_optField, lookup_bytesField, decodeStrOpt_map, decodeBoolOpt_map,
          decodeIntOpt_map, decodeFloatOpt_map, decodeArrayField_optField,
          decodeArrayField_bytesField, decodeKvlistField_optField,
          decodeKvlistField_bytesField, decodeBytesOpt_ite, Option.bind,
          decodeArrayField, decodeKvlistField, List.lookup,
          decode_encode_kvlistValue k]
    | some a =>
      cases kv with
      | none =>
        simp [encodeAttributeValue, decodeAttributeValue, lookup_append,
          lookup_optField, lookup_bytesField, decodeStrOpt_map, decodeBoolOpt_map,
          decodeIntOpt_map, decodeFloatOpt_map, decodeArrayField_optField,
          decodeArrayField_bytesField, decodeKvlistField_optField,
          decodeKvlistField_bytesField, decodeBytesOpt_ite, Option.bind,
          decodeArrayField, decodeKvlistField, List.lookup,
          decode_encode_arrayValue a]
      | some k =>
        simp [encodeAttributeValue, decodeAttributeValue, lookup_append,
          lookup_optField, lookup_bytesField, decodeStrOpt_map, decodeBoolOpt_map,
          decodeIntOpt_map, decodeFloatOpt_map, decodeArrayField_optField,
          decodeArrayField_bytesField, decodeKvlistField_optField,
          decodeKvlistField_bytesField, decodeBytesOpt_ite, Option.bind,
          decodeArrayField, decodeKvlistField, List.lookup,
          decode_encode_arrayValue a, decode_encode_kvlistValue k]

theorem decode_encode_arrayValue (a : ArrayValue) :
    decodeArrayValue (encodeArrayValue a) = some a := by
  match a with
  | .mk vs =>
    simp [encodeArrayValue, decodeArrayValue, decodeValuesAttrField,
      decode_encode_attrList vs]

theorem decode_encode_kvlistValue (k : KvlistValue) :
    decodeKvlistValue (encodeKvlistValue k) = some k := by
  match k with
  | .mk kvs =>
    simp [encodeKvlistValue, decodeKvlistValue, decodeValuesKVField,
      decode_encode_keyValueList kvs]

theorem decode_encode_keyValue (kv : KeyValue) :
    decodeKeyValue (encodeKeyValue kv) = some kv := by
  match kv with
  | .mk k v =>
    simp [encodeKeyValue, decodeKeyValue, decodeValueField, List.lookup,
      decodeStrOpt, decode_encode_attr v, Option.bind]

theorem decode_encode_attrList (vs : List AttributeValue) :
    decodeAttrList (encodeAttrList vs) = some vs := by
  match vs with
  | [] => rfl
  | v :: t =>
    simp [encodeAttrList, decodeAttrList, decode_encode_attr v,
      decode_encode_attrList t, Option.bind]

theorem decode_encode_keyValueList (kvs : List KeyValue) :
    decodeKeyValueList (encodeKeyValueList kvs) = some kvs := by
  match kvs with
  | [] => rfl
  | kv :: t =>
    simp [encodeKeyValueList, decodeKeyValueList, decode_encode_keyValue kv,
      decode_encode_keyValueList t, Option.bind]

end

/-! ### The record and envelope roundtrip -/

theorem decodeKeyValueList_map (kvs : List KeyValue) :
    decodeKeyValueList (kvs.map encodeKeyValue) = some kvs := by
  induction kvs with
  | nil => rfl
  | cons kv t ih =>
    simp [decodeKeyValueList, decode_encode_keyValue kv, ih, Option.bind]

theorem decode_encode_logRecord (r : LogRecord) :
    decodeLogRecord (encodeLogRecord r) = some r := by
  obtain ⟨t, st, sn, b, attrs⟩ := r
  cases attrs with
  | nil =>
    simp [encodeLogRecord, decodeLogRecord, List.lookup, decodeUInt64Field,
      decodeStrField, decodeIntField, decodeBodyField, decodeKeyValuesField,
      decode_encode_attr, Option.bind]
  | cons a l =>
    simp [encodeLogRecord, decodeLogRecord, List.lookup, decodeUInt64Field,
      decodeStrField, decodeIntField, decodeBodyField, decodeKeyValuesField,
      decode_encode_attr, decodeKeyValueList, decode_encode_keyValue,
      decodeKeyValueList_map, Option.bind]

theorem decodeLogRecordList_map (rs : List LogRecord) :
    decodeLogRecordList (rs.map encodeLogRecord) = some rs := by
  induction rs with
  | nil => rfl
  | cons r t ih =>
    simp [decodeLogRecordList, decode_encode_logRecord r, ih, Option.bind]

theorem decode_encode_scope (s : Scope) :
    decodeScope (some (encodeScope s)) = some s := by
  obtain ⟨n, v⟩ := s
  by_cases hv : v = "" <;>
    simp [encodeScope, decodeScope, List.lookup, decodeStrField, hv, Option.bind]

theorem decode_encode_scopeLogs (sl : ScopeLogs) :
    decodeScopeLogs (encodeScopeLogs sl) = some sl := by
  obtain ⟨sc, rs⟩ := sl
  cases rs with
  | nil =>
    simp [encodeScopeLogs, decodeScopeLogs, List.lookup, decode_encode_scope,
      Option.bind]
  | cons r t =>
    simp [encodeScopeLogs, decodeScopeLogs, List.lookup, decode_encode_scope,
      decodeLogRecordList, decode_encode_logRecord, decodeLogRecordList_map,
      Option.bind]

theorem decodeScopeLogsList_map (sls : List ScopeLogs) :
    decodeScopeLogsList (sls.map encodeScopeLogs) = some sls := by
  induction sls with
  | nil => rfl
  | cons sl t ih =>
    simp [decodeScopeLogsList, decode_encode_scopeLogs sl, ih, Option.bind]

theorem decode_encode_resource (res : Resource) :
    decodeResource (some (encodeResource res)) = some res := by
  obtain ⟨attrs⟩ := res
  simp [encodeResource, decodeResource, List.lookup, decodeKeyValuesField,
    decodeKeyValueList_map]

theorem decode_encode_resourceLogs (rl : ResourceLogs) :
    decodeResourceLogs (encodeResourceLogs rl) = some rl := by
  obtain ⟨res, sls⟩ := rl
  cases sls with
  | nil =>
    simp [encodeResourceLogs, decodeResourceLogs, List.lookup,
      decode_encode_resource, Option.bind]
  | cons sl t =>
    simp [encodeResourceLogs, decodeResourceLogs, List.lookup,
      decode_encode_resource, decodeScopeLogsList, decode_encode_scopeLogs,
      decodeScopeLogsList_map, Option.bind]

/-! ### Claim C8 -/

/-- C8: encoding any batch into the wire envelope exactly as `sendBatch`
marshals it, and then reading the envelope back, recovers exactly the
original record list — every record equal in timestamp, severity text,
severity number, body and attributes (the decoded `AttributeValue`
carries the same one variant). -/
theorem claim8_envelope_roundtrip (batch : List LogRecord) :
    decodePayloadRecords (sendBatchPayload batch) = some batch := by
  simp [sendBatchPayload, decodePayloadRecords, List.lookup,
    decodeResourceLogsList, decode_encode_resourceLogs, sendBatchResourceLogs,
    Option.bind]

/-! ### Claim C5 -/

/-- Counterexample to C5 as stated: the Go struct tag on the
`ScopeLogs` field is `scope_logs,omitempty` (main.go line 20), so the
scope-logs list of a marshalled envelope sits under the key
`scope_logs`, and there is no `scopeLogs` key at all. -/
theorem claim5_counterexample :
    jsonObjLookup (encodeResourceLogs (sendBatchResourceLogs [sampleRec]))
      "scopeLogs" = none ∧
    (jsonObjLookup (encodeResourceLogs (sendBatchResourceLogs [sampleRec]))
      "scope_logs").isSome = true := by
  exact ⟨rfl, rfl⟩

/-- C5 (amended): the serialized body is the section-6 envelope except
that the scope-logs list is keyed `scope_logs` (and the record list
`log_records`, as section 6 already shows): the payload holds
`resourceLogs`; a `ResourceLogs` holds `resource` and, when non-empty,
`scope_logs`; a `ScopeLogs` holds `scope` and, when non-empty,
`log_records`; a record always carries `timeUnixNano`, `severityText`,
`severityNumber` and `body`, and carries `attributes` exactly when the
list is non-empty; each variant field of an `AttributeValue` is present
exactly when that variant is set (the `Json` model has no null value, so
an absent variant is omitted, never null). -/
theorem claim5_envelope_shape :
    (∀ batch, jsonObjLookup (sendBatchPayload batch) "resourceLogs" =
      some (Json.arr [encodeResourceLogs (sendBatchResourceLogs batch)])) ∧
    (∀ rl : ResourceLogs,
      jsonObjLookup (encodeResourceLogs rl) "scope_logs" =
        (if rl.scopeLogs.isEmpty then none
         else some (Json.arr (rl.scopeLogs.map encodeScopeLogs))) ∧
      jsonObjLookup (encodeResourceLogs rl) "scopeLogs" = none ∧
      jsonObjLookup (encodeResourceLogs rl) "resource" =
        some (encodeResource rl.resource)) ∧
    (∀ sl : ScopeLogs,
      jsonObjLookup (encodeScopeLogs sl) "log_records" =
        (if sl.logRecords.isEmpty then none
         else some (Json.arr (sl.logRecords.map encodeLogRecord))) ∧
      jsonObjLookup (encodeScopeLogs sl) "scope" = some (encodeScope sl.scope)) ∧
    (∀ r : LogRecord,
      jsonObjLookup (encodeLogRecord r) "attributes" =
        (if r.attributes.isEmpty then none
         else some (Json.arr (r.attributes.map encodeKeyValue))) ∧
      jsonObjLookup (encodeLogRecord r) "timeUnixNano" =
        some (Json.num (r.timeUnixNano : Int)) ∧
      jsonObjLookup (encodeLogRecord r) "severityText" =
        some (Json.str r.severityText) ∧
      jsonObjLookup (encodeLogRecord r) "severityNumber" =
        some (Json.num r.severityNumber) ∧
      jsonObjLookup (encodeLogRecord r) "body" =
        some (encodeAttributeValue r.body)) ∧
    (∀ v : AttributeValue,
      jsonObjLookup (encodeAttributeValue v) "stringValue" =
        v.stringValue.map Json.str ∧
      jsonObjLookup (encodeAttributeValue v) "boolValue" =
        v.boolValue.map Json.bool ∧
      jsonObjLookup (encodeAttributeValue v) "intValue" =
        v.intValue.map Json.num ∧
      jsonObjLookup (encodeAttributeValue v) "doubleValue" =
        v.doubleValue.map Json.fnum ∧
      jsonObjLookup (encodeAttributeValue v) "arrayValue" =
        v.arrayValue.map encodeArrayValue ∧
      jsonObjLookup (encodeAttributeValue v) "kvlistValue" =
        v.kvlistValue.map encodeKvlistValue ∧
      jsonObjLookup (encodeAttributeValue v) "bytesValue" =
        (if v.bytesValue.isEmpty then none
         else some (Json.str (String.mk (b64Encode v.bytesValue))))) := by
  refine ⟨fun batch => rfl, ?_, ?_, ?_, ?_⟩
  · intro rl
    obtain ⟨res, sls⟩ := rl
    cases sls <;>
      simp [jsonObjLookup, encodeResourceLogs, List.lookup]
  · intro sl
    obtain ⟨sc, rs⟩ := sl
    cases rs <;>
      simp [jsonObjLookup, encodeScopeLogs, List.lookup]
  · intro r
    obtain ⟨t, st, sn, b, attrs⟩ := r
    cases attrs <;>
      simp [jsonObjLookup, encodeLogRecord, List.lookup]
  · intro v
    match v with
    | .mk sv bv iv dv av kv byv =>
      cases av <;> cases kv <;>
        simp [jsonObjLookup, encodeAttributeValue, lookup_append, lookup_optField,
          lookup_bytesField, List.lookup, AttributeValue.stringValue,
          AttributeValue.boolValue, AttributeValue.intValue,
          AttributeValue.doubleValue, AttributeValue.arrayValue,
          AttributeValue.kvlistValue, AttributeValue.bytesValue]

end OtelLogSender
